import Mathlib

/-!
Shallow embedding of the consensus submission layer
(src/crates/sui-core/src/consensus_adapter.rs) and proofs about it.

Validator identities and transaction digests are opaque comparable tokens,
embedded as natural numbers.  A committee is a list of (identity, stake)
pairs.  Divergent loops of the source are embedded with an explicit fuel
argument: a return value of none means the fuel ran out, and a result that
is none for every fuel models a loop that never terminates.
-/

namespace ConsensusAdapter

/-- Validator identity: an opaque comparable token (consensus_adapter.rs uses
AuthorityName from sui-types). -/
abbrev AuthorityName := Nat

/-- Content digest of a user certificate, an opaque token. -/
abbrev TransactionDigest := Nat

/-- Connectivity state of a peer, as consumed from the connection monitor. -/
inductive ConnectionStatus
  | Connected
  | Disconnected
deriving DecidableEq

/-- Kind of a consensus transaction: a user certificate (carrying a digest)
or the end-of-publish control message of an authority.  Embeds the two kinds
of ConsensusTransactionKind that consensus_adapter.rs inspects. -/
inductive ConsensusTransactionKind
  | UserTransaction (digest : TransactionDigest)
  | EndOfPublish (authority : AuthorityName)
deriving DecidableEq

/-- Consensus transaction: an immutable payload with a kind. -/
structure ConsensusTransaction where
  kind : ConsensusTransactionKind
deriving DecidableEq

/-- Predicate from sui-types used at consensus_adapter.rs line 323: true
exactly on end-of-publish control messages. -/
def ConsensusTransaction.is_end_of_publish (t : ConsensusTransaction) : Bool :=
  match t.kind with
  | ConsensusTransactionKind.EndOfPublish _ => true
  | _ => false

/-- Constructor from sui-types used at lines 331, 589 and 698: the
end-of-publish message of the given authority. -/
def ConsensusTransaction.new_end_of_publish (a : AuthorityName) : ConsensusTransaction :=
  ⟨ConsensusTransactionKind.EndOfPublish a⟩

/-- Predicate matching the UserTransaction pattern checks of the source. -/
def ConsensusTransaction.is_user_certificate (t : ConsensusTransaction) : Bool :=
  match t.kind with
  | ConsensusTransactionKind.UserTransaction _ => true
  | _ => false

/-! ## Submission ordering (lines 653-677)

Committee::shuffle_by_stake_with_rng lives in sui-types, outside src/.
Modelled from the spec: a deterministic stake-weighted permutation of the
committee members, driven by a pseudo-random stream seeded from the
transaction digest (spec 4.1: deterministic in (committee, digest),
stake-weighted, places every member exactly once). -/

/-- Total stake of a committee fragment. -/
def stakeSum : List (AuthorityName × Nat) → Nat
  | [] => 0
  | x :: xs => x.2 + stakeSum xs

/-- Modelled from the spec: one weighted draw.  Walks the cumulative stakes
until the random value r is exhausted, returning the drawn member and the
remaining committee. -/
def pickSplit : (AuthorityName × Nat) → List (AuthorityName × Nat) → Nat →
    ((AuthorityName × Nat) × List (AuthorityName × Nat))
  | x, [], _ => (x, [])
  | x, y :: ys, r =>
      if r < x.2 then (x, y :: ys)
      else ((pickSplit y ys (r - x.2)).1, x :: (pickSplit y ys (r - x.2)).2)

/-- Modelled from the spec: deterministic pseudo-random stream derived from
the digest seed, standing in for StdRng::from_seed(digest_bytes). -/
def mixSeed (seed step : Nat) : Nat :=
  (seed * 6364136223846793005 + step * 1442695040888963407 + 12345) % (2 ^ 64)

/-- Modelled from the spec: stake-weighted selection shuffle.  The fuel
argument is instantiated with the committee length by the caller. -/
def shuffleGo (seed : Nat) : Nat → Nat → List (AuthorityName × Nat) → List AuthorityName
  | 0, _, _ => []
  | _ + 1, _, [] => []
  | fuel + 1, step, x :: xs =>
      (pickSplit x xs (mixSeed seed step % max (x.2 + stakeSum xs) 1)).1.1 ::
        shuffleGo seed fuel (step + 1)
          (pickSplit x xs (mixSeed seed step % max (x.2 + stakeSum xs) 1)).2

/-- Embeds order_validators_for_submission (lines 653-663): permute the
committee deterministically, seeded by the transaction digest. -/
def order_validators_for_submission (committee : List (AuthorityName × Nat))
    (tx_digest : TransactionDigest) : List AuthorityName :=
  shuffleGo tx_digest committee.length 0 committee

/-- Embeds Itertools::find_position as used at lines 393-397 and 672-675:
index of the first occurrence, none when absent (the source panics there). -/
def find_position (ourselves : AuthorityName) : List AuthorityName → Option Nat
  | [] => none
  | x :: xs => if x = ourselves then some 0 else (find_position ourselves xs).map (· + 1)

/-- Embeds position_submit_certificate (lines 666-677); none models the
expect panic when ourselves is not in the shuffled committee. -/
def position_submit_certificate (committee : List (AuthorityName × Nat))
    (ourselves : AuthorityName) (tx_digest : TransactionDigest) : Option Nat :=
  find_position ourselves (order_validators_for_submission committee tx_digest)

/-! ## Inflight accounting (lines 444-449 and 725-773) -/

/-- Embeds InflightDropGuard::acquire (lines 732-745): fetch_add 1 on
num_inflight_transactions. -/
def InflightDropGuard.acquire (counter : Int) : Int := counter + 1

/-- Embeds the InflightDropGuard Drop impl (lines 748-773): fetch_sub 1 on
num_inflight_transactions. -/
def InflightDropGuard.release (counter : Int) : Int := counter - 1

/-- Embeds populate_position_metric (lines 444-449): acquires an
InflightDropGuard, records the position, and the guard is dropped when the
function returns, so the counter is incremented and immediately
decremented within this call. -/
def populate_position_metric (counter : Int) : Int :=
  InflightDropGuard.release (InflightDropGuard.acquire counter)

/-! ## Connectivity-aware selection (lines 347-442)

The loop of check_submission_wrt_connectivity is embedded with fuel; the
second component of the result is the trace of deltas applied to
num_inflight_transactions during the scan ([1, -1] is the acquire/release
pair of populate_position_metric at the return-true sites; nothing touches
the counter on the return-false site). -/

/-- Embeds the loop body of check_submission_wrt_connectivity
(lines 399-441).  Branches in source order: the exclusion check (which, as
in the source, continues without advancing i), the own-position check, the
connectivity probe with unwrap_or(Disconnected), and the shift to the next
position with the end-of-list check. -/
def checkLoop (conn : AuthorityName → Option ConnectionStatus)
    (positions : List AuthorityName) (exclusions : List Nat) (ourPos : Nat) :
    Nat → Nat → Option (Bool × List Int)
  | 0, _ => none
  | fuel + 1, i =>
      if i ∈ exclusions then
        checkLoop conn positions exclusions ourPos fuel i
      else if ourPos = i then
        some (true, [1, -1])
      else if (conn (positions.getD i 0)).getD ConnectionStatus.Disconnected
          = ConnectionStatus.Connected then
        some (false, [])
      else if positions.length ≤ i + 1 then
        some (true, [1, -1])
      else
        checkLoop conn positions exclusions ourPos fuel (i + 1)

/-- Embeds check_submission_wrt_connectivity (lines 387-442).  none models
either the expect panic when ourselves is absent from positions, or fuel
running out in the loop. -/
def check_submission_wrt_connectivity (conn : AuthorityName → Option ConnectionStatus)
    (ourselves : AuthorityName) (positions : List AuthorityName)
    (exclusions : List Nat) (fuel : Nat) : Option (Bool × List Int) :=
  match find_position ourselves positions with
  | none => none
  | some p => checkLoop conn positions exclusions p fuel 0

/-- Embeds should_submit (lines 354-370): control messages return true
without ordering or touching the counter; user certificates go through the
connectivity-aware scan over the shuffled committee. -/
def should_submit (conn : AuthorityName → Option ConnectionStatus)
    (committee : List (AuthorityName × Nat)) (ourselves : AuthorityName)
    (transaction : ConsensusTransaction) (exclusions : List Nat) (fuel : Nat) :
    Option (Bool × List Int) :=
  match transaction.kind with
  | ConsensusTransactionKind.UserTransaction digest =>
      check_submission_wrt_connectivity conn ourselves
        (order_validators_for_submission committee digest) exclusions fuel
  | _ => some (true, [])

/-! ## Recovery (lines 309-341) -/

/-- Embeds submit_recovered (lines 309-341): the returned list is the list
of transactions handed to submit_unchecked.  The guard of the push is
exactly the guard of the source at lines 316-324: reconfiguration state
rejects user certs, the pending certificate set is empty, and
recovered.iter().any(is_end_of_publish) holds. -/
def submit_recovered (authority : AuthorityName) (recovered : List ConsensusTransaction)
    (isRejectUserCerts pendingCertsEmpty : Bool) : List ConsensusTransaction :=
  if isRejectUserCerts && pendingCertsEmpty then
    if recovered.any ConsensusTransaction.is_end_of_publish then
      recovered ++ [ConsensusTransaction.new_end_of_publish authority]
    else
      recovered
  else
    recovered

/-! ## Delivery to the consensus client (lines 601-650) -/

/-- Backoff between retries of submit_to_consensus, from
time::sleep(Duration::from_secs(10)) at line 628. -/
def SUBMIT_RETRY_BACKOFF_SECS : Nat := 10

/-- Embeds the retry loop of submit_after_selected (lines 610-629).  The
consensus client is a boolean oracle: clientOk k tells whether the k-th
call to submit_to_consensus succeeds.  attempts counts the calls already
made (all failed so far); on success the result is (total number of calls,
number of failure-metric increments).  Each failed call increments the
failure metric once and sleeps one fixed backoff; none means the fuel ran
out while the client kept failing. -/
def submit_after_selected (clientOk : Nat → Bool) : Nat → Nat → Option (Nat × Nat)
  | 0, _ => none
  | fuel + 1, attempts =>
      if clientOk attempts then some (attempts + 1, attempts)
      else submit_after_selected clientOk fuel (attempts + 1)

/-! ## Acknowledgment race of submit_and_wait_inner (lines 528-561) -/

/-- Timeout of the acknowledgment race, from
tokio::time::sleep(Duration::from_secs(7)) at line 544. -/
def ACK_TIMEOUT_SECS : Nat := 7

/-- Embeds lines 528-561 of submit_and_wait_inner: with the always-empty
exclusion list of line 528, evaluate should_submit; if the decision is
true, perform one delivery attempt; then race the processed notification
against the timeout.  ackBeforeTimeout tells which side of the select wins.
Returns (number of submit_after_selected invocations, number of
sequencing_certificate_timeouts increments); none propagates a
non-terminating selection scan. -/
def submit_and_wait_delivery (conn : AuthorityName → Option ConnectionStatus)
    (committee : List (AuthorityName × Nat)) (ourselves : AuthorityName)
    (transaction : ConsensusTransaction) (fuel : Nat) (ackBeforeTimeout : Bool) :
    Option (Nat × Nat) :=
  match should_submit conn committee ourselves transaction [] fuel with
  | none => none
  | some (decision, _) =>
      let first := if decision then 1 else 0
      if ackBeforeTimeout then some (first, 0) else some (first + 1, 1)

/-! ## After acknowledgment (lines 563-599)

The pending set lives in the epoch store, outside src/.  Modelled from the
spec (section 3, pending-certificate set): a list of consensus
transactions; removal erases the acknowledged transaction, and the
pending certificate count counts the user certificates among them. -/

/-- Modelled from the spec: pending_consensus_certificates_count counts the
pending user certificates. -/
def pending_consensus_certificates_count (pending : List ConsensusTransaction) : Nat :=
  (pending.filter ConsensusTransaction.is_user_certificate).length

/-- Embeds lines 563-595 of submit_and_wait_inner: remove the acknowledged
transaction from the pending set; then, only for a user certificate, read
the reconfiguration state under the read lock and, when it rejects user
certs and the pending certificate count is now zero, submit the
end-of-publish message of this authority.  Returns the new pending set and
the list of messages submitted on this path. -/
def submit_and_wait_after_ack (authority : AuthorityName)
    (transaction : ConsensusTransaction) (pending : List ConsensusTransaction)
    (isRejectUserCerts : Bool) :
    List ConsensusTransaction × List ConsensusTransaction :=
  let remaining := pending.erase transaction
  let send :=
    match transaction.kind with
    | ConsensusTransactionKind.UserTransaction _ =>
        if isRejectUserCerts then pending_consensus_certificates_count remaining == 0
        else false
    | _ => false
  (remaining, if send then [ConsensusTransaction.new_end_of_publish authority] else [])

/-! ## Reconfiguration (lines 679-706)

ReconfigState and its operations live in epoch/reconfiguration.rs, outside
src/.  Modelled from the spec (section 4.5): three states AcceptingCerts,
RejectingUserCerts, RejectingAllCerts; should_accept_user_certs holds only
in the first; is_reject_user_certs holds only in the second;
close_user_certs transitions to RejectingUserCerts. -/

/-- Modelled from the spec: the reconfiguration state machine of 4.5. -/
inductive ReconfigState
  | AcceptAllCerts
  | RejectUserCerts
  | RejectAllCerts
deriving DecidableEq

/-- Modelled from the spec: user certificates are accepted only in the
initial state. -/
def ReconfigState.should_accept_user_certs : ReconfigState → Bool
  | ReconfigState.AcceptAllCerts => true
  | _ => false

/-- Modelled from the spec: the epoch-closing phase that still delivers
pending certificates. -/
def ReconfigState.is_reject_user_certs : ReconfigState → Bool
  | ReconfigState.RejectUserCerts => true
  | _ => false

/-- Modelled from the spec: close_user_certs transitions the state to
RejectingUserCerts. -/
def close_user_certs (_ : ReconfigState) : ReconfigState :=
  ReconfigState.RejectUserCerts

/-- Embeds close_epoch (lines 683-705): under the write lock, if the state
no longer accepts user certs the call returns with no effect; otherwise it
reads the pending count, decides whether to send end-of-publish, and
transitions the state; the message is submitted after the lock scope ends.
Returns the new state and the list of submitted messages. -/
def close_epoch (authority : AuthorityName) (reconfig : ReconfigState)
    (pendingCount : Nat) : ReconfigState × List ConsensusTransaction :=
  if !reconfig.should_accept_user_certs then
    (reconfig, [])
  else
    (close_user_certs reconfig,
      if pendingCount == 0 then [ConsensusTransaction.new_end_of_publish authority]
      else [])

/-- Observable events of one close_epoch call, in order. -/
inductive CloseEpochEvent
  | acquireWriteLock
  | readPendingCount
  | transitionState
  | releaseWriteLock
  | submitMessage
deriving DecidableEq

/-- Embeds the event order of close_epoch (lines 683-705): the guard is
acquired on entry and dropped when the block ends, and the end-of-publish
submission of lines 696-704 happens outside the lock scope. -/
def close_epoch_events (reconfig : ReconfigState) (pendingCount : Nat) :
    List CloseEpochEvent :=
  if !reconfig.should_accept_user_certs then
    [CloseEpochEvent.acquireWriteLock, CloseEpochEvent.releaseWriteLock]
  else
    [CloseEpochEvent.acquireWriteLock, CloseEpochEvent.readPendingCount,
      CloseEpochEvent.transitionState, CloseEpochEvent.releaseWriteLock] ++
      (if pendingCount == 0 then [CloseEpochEvent.submitMessage] else [])

/-! ## Supporting lemmas -/

lemma pickSplit_snd_length (x : AuthorityName × Nat) (xs : List (AuthorityName × Nat)) (r : Nat) :
    ((pickSplit x xs r).2).length = xs.length := by
  induction xs generalizing x r with
  | nil => simp [pickSplit]
  | cons y ys ih =>
      simp only [pickSplit]
      split
      · simp
      · simp [ih]

lemma pickSplit_perm (x : AuthorityName × Nat) (xs : List (AuthorityName × Nat)) (r : Nat) :
    List.Perm ((pickSplit x xs r).1 :: (pickSplit x xs r).2) (x :: xs) := by
  induction xs generalizing x r with
  | nil => simp [pickSplit]
  | cons y ys ih =>
      simp only [pickSplit]
      split
      · exact List.Perm.refl _
      · exact (List.Perm.swap x _ _).trans (List.Perm.cons x (ih y (r - x.2)))

lemma shuffleGo_perm (seed : Nat) :
    ∀ fuel step (l : List (AuthorityName × Nat)), l.length ≤ fuel →
      List.Perm (shuffleGo seed fuel step l) (l.map Prod.fst) := by
  intro fuel
  induction fuel with
  | zero =>
      intro step l hl
      have : l = [] := List.eq_nil_of_length_eq_zero (Nat.le_zero.mp hl)
      subst this
      simp [shuffleGo]
  | succ f ih =>
      intro step l hl
      match l with
      | [] => simp [shuffleGo]
      | x :: xs =>
          simp only [shuffleGo, List.map_cons]
          refine List.Perm.trans (List.Perm.cons _ (ih (step + 1) _ ?_)) ?_
          · rw [pickSplit_snd_length]
            simp only [List.length_cons] at hl
            omega
          · simpa using List.Perm.map Prod.fst
              (pickSplit_perm x xs (mixSeed seed step % max (x.2 + stakeSum xs) 1))

lemma order_validators_perm (committee : List (AuthorityName × Nat))
    (digest : TransactionDigest) :
    List.Perm (order_validators_for_submission committee digest) (committee.map Prod.fst) :=
  shuffleGo_perm digest committee.length 0 committee (Nat.le_refl _)

lemma find_position_mem (a : AuthorityName) :
    ∀ l : List AuthorityName, a ∈ l → ∃ p, find_position a l = some p := by
  intro l
  induction l with
  | nil => intro h; simp at h
  | cons x xs ih =>
      intro hmem
      by_cases hx : x = a
      · exact ⟨0, by simp [find_position, hx]⟩
      · have hxs : a ∈ xs := by
          rcases List.mem_cons.mp hmem with h | h
          · exact absurd h.symm hx
          · exact h
        obtain ⟨p, hp⟩ := ih hxs
        exact ⟨p + 1, by simp [find_position, hx, hp]⟩

lemma find_position_lt_length (a : AuthorityName) :
    ∀ l : List AuthorityName, ∀ p, find_position a l = some p → p < l.length := by
  intro l
  induction l with
  | nil => intro p h; simp [find_position] at h
  | cons x xs ih =>
      intro p h
      simp only [find_position] at h
      split at h
      · cases h; simp
      · obtain ⟨q, hq, hq1⟩ := Option.map_eq_some'.mp h
        have := ih q hq
        simp only [List.length_cons]
        omega

lemma find_position_eq_zero_iff (a : AuthorityName) (l : List AuthorityName) :
    find_position a l = some 0 ↔ l.head? = some a := by
  cases l with
  | nil => simp [find_position]
  | cons x xs =>
      by_cases hx : x = a
      · simp [find_position, hx]
      · simp only [find_position, hx, if_false, List.head?_cons]
        constructor
        · intro h
          obtain ⟨q, _, hq1⟩ := Option.map_eq_some'.mp h
          omega
        · intro h
          exact absurd (Option.some.inj h) hx

lemma getD_zero_of_head (l : List AuthorityName) (v d : AuthorityName)
    (h : l.head? = some v) : l.getD 0 d = v := by
  cases l with
  | nil => simp at h
  | cons x xs =>
      simp only [List.head?_cons, Option.some.injEq] at h
      simp [h]

lemma checkLoop_stuck (conn : AuthorityName → Option ConnectionStatus)
    (positions : List AuthorityName) (exclusions : List Nat) (ourPos i : Nat)
    (hi : i ∈ exclusions) :
    ∀ fuel, checkLoop conn positions exclusions ourPos fuel i = none := by
  intro fuel
  induction fuel with
  | zero => rfl
  | succ f ih => simp only [checkLoop, if_pos hi]; exact ih

lemma checkLoop_congr (conn1 conn2 : AuthorityName → Option ConnectionStatus)
    (positions : List AuthorityName) (p : Nat)
    (hagree : ∀ j, j < p → conn1 (positions.getD j 0) = conn2 (positions.getD j 0)) :
    ∀ fuel i, i ≤ p →
      checkLoop conn1 positions [] p fuel i = checkLoop conn2 positions [] p fuel i := by
  intro fuel
  induction fuel with
  | zero => intro i _; rfl
  | succ f ih =>
      intro i hi
      simp only [checkLoop]
      rw [if_neg (List.not_mem_nil i), if_neg (List.not_mem_nil i)]
      by_cases hpi : p = i
      · rw [if_pos hpi, if_pos hpi]
      · have hilt : i < p := lt_of_le_of_ne hi fun h => hpi h.symm
        rw [if_neg hpi, if_neg hpi, hagree i hilt]
        by_cases hconn : (conn2 (positions.getD i 0)).getD ConnectionStatus.Disconnected
            = ConnectionStatus.Connected
        · rw [if_pos hconn, if_pos hconn]
        · rw [if_neg hconn, if_neg hconn]
          by_cases hlen : positions.length ≤ i + 1
          · rw [if_pos hlen, if_pos hlen]
          · rw [if_neg hlen, if_neg hlen]
            exact ih (i + 1) hilt

lemma checkLoop_true_of_disconnected (conn : AuthorityName → Option ConnectionStatus)
    (positions : List AuthorityName) (p : Nat)
    (hplen : p < positions.length)
    (hdis : ∀ j, j < p →
      (conn (positions.getD j 0)).getD ConnectionStatus.Disconnected
        ≠ ConnectionStatus.Connected) :
    ∀ fuel i, i ≤ p → p - i < fuel →
      checkLoop conn positions [] p fuel i = some (true, [1, -1]) := by
  intro fuel
  induction fuel with
  | zero => intro i _ h; exact absurd h (Nat.not_lt_zero _)
  | succ f ih =>
      intro i hi hfuel
      simp only [checkLoop]
      rw [if_neg (List.not_mem_nil i)]
      by_cases hpi : p = i
      · rw [if_pos hpi]
      · have hilt : i < p := lt_of_le_of_ne hi fun h => hpi h.symm
        have hnl : ¬ positions.length ≤ i + 1 := by omega
        rw [if_neg hpi, if_neg (hdis i hilt), if_neg hnl]
        exact ih (i + 1) hilt (by omega)

lemma submit_loop_run (clientOk : Nat → Bool) :
    ∀ fuel N k, (∀ i, i < N → clientOk (k + i) = false) → clientOk (k + N) = true →
      N < fuel → submit_after_selected clientOk fuel k = some (k + N + 1, k + N) := by
  intro fuel
  induction fuel with
  | zero => intro N k _ _ h; exact absurd h (Nat.not_lt_zero _)
  | succ f ih =>
      intro N k hf hs hfuel
      cases N with
      | zero =>
          have hs0 : clientOk k = true := by simpa using hs
          simp [submit_after_selected, hs0]
      | succ n =>
          have h0 : clientOk k = false := by simpa using hf 0 (Nat.succ_pos n)
          have step : submit_after_selected clientOk (f + 1) k
              = submit_after_selected clientOk f (k + 1) := by
            simp [submit_after_selected, h0]
          rw [step]
          have hf2 : ∀ i, i < n → clientOk (k + 1 + i) = false := by
            intro i hi
            have h := hf (i + 1) (by omega)
            rw [show k + (i + 1) = k + 1 + i by omega] at h
            exact h
          have hs2 : clientOk (k + 1 + n) = true := by
            rw [show k + 1 + n = k + (n + 1) by omega]
            exact hs
          have hres := ih n (k + 1) hf2 hs2 (by omega)
          rw [hres]
          rw [show k + 1 + n = k + (n + 1) by omega]

/-! ## Claim theorems -/

/-- C1: recovery is claimed to synthesize an end-of-publish message exactly
when none of the recovered transactions is one.  The code inverts this
guard: with reconfiguration state RejectingUserCerts and empty pending set,
a recovered set that already holds the end-of-publish message of this
authority comes back with a second, duplicated one, and a recovered set
holding only a user certificate comes back with none synthesized. -/
theorem submit_recovered_inverted_end_of_publish_guard :
    (submit_recovered 0 [ConsensusTransaction.new_end_of_publish 0] true true).countP
        ConsensusTransaction.is_end_of_publish = 2 ∧
    submit_recovered 0 [⟨ConsensusTransactionKind.UserTransaction 0⟩] true true
      = [⟨ConsensusTransactionKind.UserTransaction 0⟩] := by
  decide

/-- C2: the connectivity-aware scan is claimed to terminate for every
exclusion set, skipping excluded ranks and advancing past them.  The code
hits continue without incrementing the rank, so as soon as the scan reaches
an excluded rank it spins forever: at committee positions [0, 1] with self
at rank 1 and rank 0 excluded, the scan returns no decision for any amount
of fuel, even with every peer connected. -/
theorem check_submission_excluded_rank_spins_forever :
    ∀ fuel, check_submission_wrt_connectivity
      (fun _ => some ConnectionStatus.Connected) 1 [0, 1] [0] fuel = none := by
  intro fuel
  have h : find_position 1 [0, 1] = some 1 := by decide
  simp only [check_submission_wrt_connectivity, h]
  exact checkLoop_stuck _ _ _ _ 0 (by decide) fuel

/-- C3: the inflight counter is claimed to be incremented at the start of a
delivery attempt and held until its end.  In the code the guard lives only
inside populate_position_metric: an attempt whose selection decision is
false completes with an empty counter-delta trace (the counter is never
incremented), and an attempt whose decision is true has already applied
both the increment and the decrement within the selection scan, before any
delivery happens. -/
theorem inflight_guard_scoped_to_position_metric :
    should_submit (fun _ => some ConnectionStatus.Connected) [(0, 1), (1, 1)] 0
        ⟨ConsensusTransactionKind.UserTransaction 0⟩ [] 3 = some (false, []) ∧
    should_submit (fun _ => some ConnectionStatus.Connected) [(0, 1), (1, 1)] 1
        ⟨ConsensusTransactionKind.UserTransaction 0⟩ [] 3 = some (true, [1, -1]) ∧
    populate_position_metric 0 = 0 ∧
    InflightDropGuard.acquire 0 = 1 ∧
    InflightDropGuard.release 1 = 0 := by
  decide

/-- C4: order_validators_for_submission is deterministic in (committee,
digest), returns a permutation of the committee members (hence every member
exactly as often as it occurs in the committee), and for a nonempty
committee exactly one member is assigned rank 0 by
position_submit_certificate. -/
theorem order_validators_deterministic_perm_unique_rank_zero
    (committee : List (AuthorityName × Nat)) (digest : TransactionDigest)
    (hne : committee ≠ []) :
    order_validators_for_submission committee digest
      = order_validators_for_submission committee digest ∧
    List.Perm (order_validators_for_submission committee digest)
      (committee.map Prod.fst) ∧
    ∃! a : AuthorityName, a ∈ committee.map Prod.fst ∧
      position_submit_certificate committee a digest = some 0 := by
  refine ⟨rfl, order_validators_perm committee digest, ?_⟩
  have hperm := order_validators_perm committee digest
  have hpos_ne : order_validators_for_submission committee digest ≠ [] := by
    intro h0
    have : committee.map Prod.fst = [] := by
      have := hperm
      rw [h0] at this
      exact (List.Perm.nil_eq this).symm
    exact hne (List.map_eq_nil_iff.mp this)
  obtain ⟨h, rest, hcons⟩ := List.exists_cons_of_ne_nil hpos_ne
  have hhead : (order_validators_for_submission committee digest).head? = some h := by
    rw [hcons]; rfl
  refine ⟨h, ⟨?_, ?_⟩, ?_⟩
  · have : h ∈ order_validators_for_submission committee digest := by
      rw [hcons]; exact List.mem_cons_self h rest
    exact hperm.mem_iff.mp this
  · exact (find_position_eq_zero_iff h _).mpr hhead
  · intro b hb
    have hbhead : (order_validators_for_submission committee digest).head? = some b :=
      (find_position_eq_zero_iff b _).mp hb.2
    rw [hhead] at hbhead
    exact (Option.some.inj hbhead).symm

/-- Witness for C4 at the concrete committee [(0, 1), (1, 2)] and digest 5. -/
theorem order_validators_deterministic_perm_unique_rank_zero_witness :
    (([(0, 1), (1, 2)] : List (AuthorityName × Nat)) ≠ []) ∧
    (order_validators_for_submission [(0, 1), (1, 2)] 5
        = order_validators_for_submission [(0, 1), (1, 2)] 5 ∧
      List.Perm (order_validators_for_submission [(0, 1), (1, 2)] 5)
        (([(0, 1), (1, 2)] : List (AuthorityName × Nat)).map Prod.fst) ∧
      ∃! a : AuthorityName, a ∈ ([(0, 1), (1, 2)] : List (AuthorityName × Nat)).map Prod.fst ∧
        position_submit_certificate [(0, 1), (1, 2)] a 5 = some 0) :=
  ⟨by decide,
    order_validators_deterministic_perm_unique_rank_zero [(0, 1), (1, 2)] 5 (by decide)⟩

/-- C5: with an empty exclusion set, the selection decision for a user
certificate follows the priority list: a connected rank-0 validator other
than self yields false; self at rank 0 yields true for every connectivity
oracle; and when every validator ranked strictly before self reads as
disconnected, the decision is true. -/
theorem should_submit_selector_cases (conn : AuthorityName → Option ConnectionStatus)
    (committee : List (AuthorityName × Nat)) (ourselves : AuthorityName)
    (digest : TransactionDigest)
    (hmem : ourselves ∈ committee.map Prod.fst) :
    (∀ v, (order_validators_for_submission committee digest).head? = some v →
      v ≠ ourselves → conn v = some ConnectionStatus.Connected →
      ∀ fuel, 1 ≤ fuel →
        should_submit conn committee ourselves
          ⟨ConsensusTransactionKind.UserTransaction digest⟩ [] fuel = some (false, [])) ∧
    ((order_validators_for_submission committee digest).head? = some ourselves →
      ∀ fuel, 1 ≤ fuel →
        should_submit conn committee ourselves
          ⟨ConsensusTransactionKind.UserTransaction digest⟩ [] fuel = some (true, [1, -1])) ∧
    (∀ p, find_position ourselves (order_validators_for_submission committee digest) = some p →
      (∀ j, j < p →
        (conn ((order_validators_for_submission committee digest).getD j 0)).getD
          ConnectionStatus.Disconnected = ConnectionStatus.Disconnected) →
      ∀ fuel, p + 1 ≤ fuel →
        should_submit conn committee ourselves
          ⟨ConsensusTransactionKind.UserTransaction digest⟩ [] fuel = some (true, [1, -1])) := by
  have hmem2 : ourselves ∈ order_validators_for_submission committee digest :=
    (order_validators_perm committee digest).mem_iff.mpr hmem
  obtain ⟨p, hp⟩ := find_position_mem ourselves _ hmem2
  refine ⟨?_, ?_, ?_⟩
  · intro v hv hvne hvconn fuel hfuel
    show check_submission_wrt_connectivity conn ourselves
      (order_validators_for_submission committee digest) [] fuel = some (false, [])
    simp only [check_submission_wrt_connectivity, hp]
    have hpne : p ≠ 0 := by
      intro h0
      rw [h0] at hp
      have := (find_position_eq_zero_iff ourselves _).mp hp
      rw [hv] at this
      exact hvne (Option.some.inj this)
    cases fuel with
    | zero => omega
    | succ f =>
        simp only [checkLoop]
        rw [if_neg (List.not_mem_nil 0), if_neg hpne,
          getD_zero_of_head _ v 0 hv, hvconn]
        rfl
  · intro hhead fuel hfuel
    show check_submission_wrt_connectivity conn ourselves
      (order_validators_for_submission committee digest) [] fuel = some (true, [1, -1])
    have hp0 : find_position ourselves (order_validators_for_submission committee digest)
        = some 0 := (find_position_eq_zero_iff ourselves _).mpr hhead
    simp only [check_submission_wrt_connectivity, hp0]
    cases fuel with
    | zero => omega
    | succ f =>
        simp [checkLoop]
  · intro q hq hdis fuel hfuel
    show check_submission_wrt_connectivity conn ourselves
      (order_validators_for_submission committee digest) [] fuel = some (true, [1, -1])
    simp only [check_submission_wrt_connectivity, hq]
    exact checkLoop_true_of_disconnected conn _ q
      (find_position_lt_length ourselves _ q hq)
      (fun j hj => by rw [hdis j hj]; decide)
      fuel 0 (Nat.zero_le q) (by omega)

/-- Witness for C5: committee [(0, 1), (1, 1)] and digest 0 shuffle to
positions [1, 0]; with rank-0 validator 1 connected and self 0 at rank 1,
the decision is false. -/
theorem should_submit_selector_cases_witness :
    ((0 : AuthorityName) ∈ ([(0, 1), (1, 1)] : List (AuthorityName × Nat)).map Prod.fst) ∧
    should_submit (fun _ => some ConnectionStatus.Connected) [(0, 1), (1, 1)] 0
      ⟨ConsensusTransactionKind.UserTransaction 0⟩ [] 2 = some (false, []) :=
  ⟨by decide,
    (should_submit_selector_cases (fun _ => some ConnectionStatus.Connected)
      [(0, 1), (1, 1)] 0 0 (by decide)).1 1 (by decide) (by decide) (by decide)
      2 (by decide)⟩

/-- C6: the delivery loop retries without bound.  For a client that fails
its first N calls and succeeds on call N, the loop makes exactly N + 1
calls, increments the failure counter exactly N times (one fixed 10-second
backoff follows each failure), and completes on the successful call; the
bound N is arbitrary, so there is no retry cap. -/
theorem submit_after_selected_unbounded_retry (clientOk : Nat → Bool) (N : Nat)
    (hfail : ∀ i, i < N → clientOk i = false) (hsucc : clientOk N = true) :
    (∀ fuel, N < fuel → submit_after_selected clientOk fuel 0 = some (N + 1, N)) ∧
    SUBMIT_RETRY_BACKOFF_SECS = 10 := by
  refine ⟨?_, rfl⟩
  intro fuel hfuel
  have := submit_loop_run clientOk fuel N 0
    (fun i hi => by simpa using hfail i hi) (by simpa using hsucc) hfuel
  simpa using this

/-- Witness for C6 with a client that fails its first two calls. -/
theorem submit_after_selected_unbounded_retry_witness :
    ((∀ i, i < 2 → (fun k => decide (2 ≤ k)) i = false) ∧
      (fun k => decide (2 ≤ k)) 2 = true) ∧
    submit_after_selected (fun k => decide (2 ≤ k)) 5 0 = some (3, 2) :=
  ⟨⟨by decide, by decide⟩,
    (submit_after_selected_unbounded_retry (fun k => decide (2 ≤ k)) 2
      (by decide) (by decide)).1 5 (by decide)⟩

/-- C7: the acknowledgment wait races a fixed 7-second timeout against the
processed notification.  When the timeout side wins, the timeout counter is
incremented exactly once and one extra delivery attempt is performed on top
of the attempts implied by the selection decision, whatever that decision
was; when the acknowledgment side wins, no extra attempt happens and the
counter stays untouched. -/
theorem ack_timeout_race_fallback (conn : AuthorityName → Option ConnectionStatus)
    (committee : List (AuthorityName × Nat)) (ourselves : AuthorityName)
    (transaction : ConsensusTransaction) (fuel : Nat) (d : Bool) (tr : List Int)
    (h : should_submit conn committee ourselves transaction [] fuel = some (d, tr)) :
    submit_and_wait_delivery conn committee ourselves transaction fuel false
      = some ((if d then 1 else 0) + 1, 1) ∧
    submit_and_wait_delivery conn committee ourselves transaction fuel true
      = some ((if d then 1 else 0), 0) ∧
    ACK_TIMEOUT_SECS = 7 := by
  refine ⟨?_, ?_, rfl⟩ <;> simp [submit_and_wait_delivery, h]

/-- Witness for C7 at a concrete attempt whose selection decision is false:
the timeout side still performs one delivery attempt. -/
theorem ack_timeout_race_fallback_witness :
    should_submit (fun _ => some ConnectionStatus.Connected) [(0, 1), (1, 1)] 0
      ⟨ConsensusTransactionKind.UserTransaction 0⟩ [] 4 = some (false, []) ∧
    (submit_and_wait_delivery (fun _ => some ConnectionStatus.Connected) [(0, 1), (1, 1)] 0
        ⟨ConsensusTransactionKind.UserTransaction 0⟩ 4 false
      = some ((if false then 1 else 0) + 1, 1) ∧
    submit_and_wait_delivery (fun _ => some ConnectionStatus.Connected) [(0, 1), (1, 1)] 0
        ⟨ConsensusTransactionKind.UserTransaction 0⟩ 4 true
      = some ((if false then 1 else 0), 0) ∧
    ACK_TIMEOUT_SECS = 7) :=
  ⟨by decide,
    ack_timeout_race_fallback (fun _ => some ConnectionStatus.Connected) [(0, 1), (1, 1)]
      0 ⟨ConsensusTransactionKind.UserTransaction 0⟩ 4 false [] (by decide)⟩

/-- C8: after acknowledgment the transaction is removed from the pending
set, and the end-of-publish message of this authority is submitted if and
only if the transaction was a user certificate, the reconfiguration state
rejects user certs, and the pending certificate count after the removal is
zero; in every other case nothing is submitted on this path. -/
theorem after_ack_end_of_publish_characterization (authority : AuthorityName)
    (transaction : ConsensusTransaction) (pending : List ConsensusTransaction)
    (isRejectUserCerts : Bool) :
    (submit_and_wait_after_ack authority transaction pending isRejectUserCerts).1
      = pending.erase transaction ∧
    ((submit_and_wait_after_ack authority transaction pending isRejectUserCerts).2
        = [ConsensusTransaction.new_end_of_publish authority] ↔
      (transaction.is_user_certificate = true ∧ isRejectUserCerts = true ∧
        pending_consensus_certificates_count (pending.erase transaction) = 0)) ∧
    ((submit_and_wait_after_ack authority transaction pending isRejectUserCerts).2 = [] ∨
      (submit_and_wait_after_ack authority transaction pending isRejectUserCerts).2
        = [ConsensusTransaction.new_end_of_publish authority]) := by
  obtain ⟨k⟩ := transaction
  cases k with
  | UserTransaction digest =>
      cases isRejectUserCerts with
      | false =>
          simp [submit_and_wait_after_ack, ConsensusTransaction.is_user_certificate]
      | true =>
          by_cases hc : pending_consensus_certificates_count
              (pending.erase ⟨ConsensusTransactionKind.UserTransaction digest⟩) = 0
          · simp [submit_and_wait_after_ack, ConsensusTransaction.is_user_certificate, hc]
          · simp [submit_and_wait_after_ack, ConsensusTransaction.is_user_certificate, hc]
  | EndOfPublish a =>
      simp [submit_and_wait_after_ack, ConsensusTransaction.is_user_certificate]

/-- C9: close_epoch is a no-op once the state no longer accepts user certs;
otherwise it transitions to RejectUserCerts and submits the end-of-publish
message exactly when the pending count read under the lock is zero; a
repeated call is always a no-op; and in the event order of one call the
submission only ever occurs after the write lock is released. -/
theorem close_epoch_idempotent_and_lock_ordering (authority : AuthorityName)
    (reconfig : ReconfigState) (pendingCount : Nat) :
    (reconfig.should_accept_user_certs = false →
      close_epoch authority reconfig pendingCount = (reconfig, [])) ∧
    (reconfig.should_accept_user_certs = true →
      (close_epoch authority reconfig pendingCount).1 = ReconfigState.RejectUserCerts ∧
      ((close_epoch authority reconfig pendingCount).2
          = [ConsensusTransaction.new_end_of_publish authority] ↔ pendingCount = 0) ∧
      (pendingCount ≠ 0 → (close_epoch authority reconfig pendingCount).2 = [])) ∧
    (∀ c2, close_epoch authority (close_epoch authority reconfig pendingCount).1 c2
      = ((close_epoch authority reconfig pendingCount).1, [])) ∧
    ((close_epoch_events reconfig pendingCount).takeWhile
        (fun e => e != CloseEpochEvent.releaseWriteLock)).all
      (fun e => e != CloseEpochEvent.submitMessage) = true ∧
    (CloseEpochEvent.submitMessage ∈ close_epoch_events reconfig pendingCount ↔
      (reconfig.should_accept_user_certs = true ∧ pendingCount = 0)) := by
  by_cases hc : pendingCount = 0 <;>
    cases reconfig <;>
      simp [close_epoch, close_epoch_events, close_user_certs,
        ReconfigState.should_accept_user_certs, hc, List.takeWhile, List.all]

/-- Witness for C9 in the accepting state with an empty pending queue. -/
theorem close_epoch_idempotent_and_lock_ordering_witness :
    ReconfigState.should_accept_user_certs ReconfigState.AcceptAllCerts = true ∧
    ((close_epoch 0 ReconfigState.AcceptAllCerts 0).1 = ReconfigState.RejectUserCerts ∧
      ((close_epoch 0 ReconfigState.AcceptAllCerts 0).2
          = [ConsensusTransaction.new_end_of_publish 0] ↔ (0 : Nat) = 0) ∧
      ((0 : Nat) ≠ 0 → (close_epoch 0 ReconfigState.AcceptAllCerts 0).2 = [])) :=
  ⟨by decide,
    (close_epoch_idempotent_and_lock_ordering 0 ReconfigState.AcceptAllCerts 0).2.1
      (by decide)⟩

/-- C10: the selection decision for a user certificate with an empty
exclusion set depends only on what the connectivity oracle answers for the
validators ranked strictly before self in the priority list: two oracles
agreeing there produce the same should_submit outcome for every fuel, so
the connectivity of self and of validators ranked at or after self never
influences the decision. -/
theorem should_submit_noninterference (committee : List (AuthorityName × Nat))
    (ourselves : AuthorityName) (digest : TransactionDigest)
    (conn1 conn2 : AuthorityName → Option ConnectionStatus) (p : Nat)
    (hp : find_position ourselves (order_validators_for_submission committee digest) = some p)
    (hagree : ∀ j, j < p →
      conn1 ((order_validators_for_submission committee digest).getD j 0)
        = conn2 ((order_validators_for_submission committee digest).getD j 0)) :
    ∀ fuel,
      should_submit conn1 committee ourselves
        ⟨ConsensusTransactionKind.UserTransaction digest⟩ [] fuel
      = should_submit conn2 committee ourselves
        ⟨ConsensusTransactionKind.UserTransaction digest⟩ [] fuel := by
  intro fuel
  show check_submission_wrt_connectivity conn1 ourselves
      (order_validators_for_submission committee digest) [] fuel
    = check_submission_wrt_connectivity conn2 ourselves
      (order_validators_for_submission committee digest) [] fuel
  simp only [check_submission_wrt_connectivity, hp]
  exact checkLoop_congr conn1 conn2 _ p hagree fuel 0 (Nat.zero_le p)

/-- Witness for C10: oracles that agree on rank-0 validator 1 but disagree
on self (validator 0, ranked 1) give the same decision. -/
theorem should_submit_noninterference_witness :
    (find_position 0 (order_validators_for_submission [(0, 1), (1, 1)] 0) = some 1 ∧
      (∀ j, j < 1 →
        (fun _ => some ConnectionStatus.Connected)
            ((order_validators_for_submission [(0, 1), (1, 1)] 0).getD j 0)
          = (fun a => if a = 1 then some ConnectionStatus.Connected
              else some ConnectionStatus.Disconnected)
            ((order_validators_for_submission [(0, 1), (1, 1)] 0).getD j 0))) ∧
    should_submit (fun _ => some ConnectionStatus.Connected) [(0, 1), (1, 1)] 0
        ⟨ConsensusTransactionKind.UserTransaction 0⟩ [] 4
      = should_submit (fun a => if a = 1 then some ConnectionStatus.Connected
            else some ConnectionStatus.Disconnected) [(0, 1), (1, 1)] 0
        ⟨ConsensusTransactionKind.UserTransaction 0⟩ [] 4 :=
  ⟨⟨by decide, by decide⟩,
    should_submit_noninterference [(0, 1), (1, 1)] 0 0
      (fun _ => some ConnectionStatus.Connected)
      (fun a => if a = 1 then some ConnectionStatus.Connected
        else some ConnectionStatus.Disconnected)
      1 (by decide) (by decide) 4⟩

end ConsensusAdapter
